import Mathlib

/-!
Shallow embedding of the arcaneflow schema-state transformation graph,
its optimization strategies, and the pipeline execution engine.

Sources embedded (paths relative to the repository root):
- src/arcaneflow/core/interfaces/transformation_signature.py
- src/arcaneflow/core/interfaces/etl_node.py
- src/arcaneflow/core/interfaces/context.py
- src/arcaneflow/core/optimizers/graph/schema_state_manager.py
- src/arcaneflow/core/optimizers/graph/transformation_graph_builder.py
- src/arcaneflow/core/optimizers/strategies/redundancy_optimizer.py
- src/arcaneflow/core/optimizers/strategies/cycle_optimizer.py
- src/arcaneflow/core/optimizers/cayley.py
- src/arcaneflow/core/pipeline/builder.py

A schema state is a set of column names, modelled as `Finset String`
(Python `set`/`frozenset` of `str`).  The networkx `DiGraph` is modelled by
its edge list with the networkx semantics that `add_edge(u, v, **attrs)` on
an existing pair `(u, v)` updates the attributes in place rather than adding
a second edge.  Graph vertices are identified by their canonical schema set:
`SchemaStateManager.get_or_create_node` issues exactly one node name per
schema value within a run (the naming function `schema_{hash(schema)}` is
modelled separately and parametrically, since Python's `hash` is opaque).
-/

namespace ArcaneFlow

/-- Column-name set, the Python `set`/`frozenset` of column names. -/
abbrev Schema := Finset String

/-- Embeds `TransformationSignature` (transformation_signature.py).  The
`properties` dict participates in none of the analysed behaviour; it is
kept as an ordered list of stringified pairs. -/
structure TransformationSignature where
  input_schema : Schema
  output_schema : Schema
  transformation_type : String
  properties : List (String × String) := []
deriving DecidableEq

/-- Embeds `PipelineContext` (context.py): opaque data payload, metadata
map, and the optional transactional session handle. -/
structure PipelineContext where
  data : Option String := none
  metadata : List (String × String) := []
  session : Option String := none
deriving DecidableEq

/-- Embeds `ETLNode` (etl_node.py).  A node has a stable id, an `execute`
operation (here `run`, which may fail), and optionally a transformation
signature: `_get_node_signature` in the builders returns `None` when the
node lacks the attribute or raises `NotImplementedError`, which is the
`none` case here. -/
structure ETLNode where
  node_id : String
  getSignature : Option TransformationSignature
  run : PipelineContext → Except String PipelineContext

/-- Embeds `Pipeline` (builder.py): source, ordered intermediate nodes,
optional sink. -/
structure Pipeline where
  source : ETLNode
  nodes : List ETLNode
  sink : Option ETLNode

/-- Embeds `_collect_pipeline_nodes`: `[source] ++ nodes ++ [sink?]`.
The source is always present (the builder refuses to build without one),
so the code's `if pipeline.source` test is always true. -/
def collectPipelineNodes (p : Pipeline) : List ETLNode :=
  [p.source] ++ p.nodes ++ p.sink.toList

/-- Embeds `SchemaStateManager.calculate_next_state` (and the identical
`CayleyGraphOptimizer._calculate_schema_state`):
`unchanged_columns = current_schema - signature.input_schema`, then
`unchanged_columns.union(signature.output_schema)`. -/
def calculate_next_state (current_schema : Schema) (s : TransformationSignature) : Schema :=
  (current_schema \ s.input_schema) ∪ s.output_schema

/-- The canonicalization table of `SchemaStateManager`: the Python dict
`schema_to_node_name : Dict[FrozenSet, str]`, as an association list keyed
by schema value. -/
abbrev SchemaTable := List (Schema × String)

/-- Dict lookup keyed by schema value. -/
def lookupSchema (m : SchemaTable) (s : Schema) : Option String :=
  match m with
  | [] => none
  | (k, v) :: rest => if k = s then some v else lookupSchema rest s

/-- Embeds `SchemaStateManager.get_or_create_node` (and the identical
`CayleyGraphOptimizer._get_or_create_schema_node`): return the stored
handle when the schema is already in the table, otherwise mint a new name
and record it.  The code mints `f"schema_{hash(schema)}"`; Python's `hash`
is opaque, so the minting function is a parameter `nameOf`. -/
def get_or_create_node (nameOf : Schema → String) (m : SchemaTable) (s : Schema) :
    String × SchemaTable :=
  match lookupSchema m s with
  | some n => (n, m)
  | none => (nameOf s, (s, nameOf s) :: m)

/-- Embeds the edges of the transformation graph.  Vertices are identified
by their canonical schema set (see the file header); each edge carries the
originating step's id and signature, exactly the attributes passed to
`add_edge(current_state, next_state, node_id=node_id, signature=signature)`. -/
structure TransitionEdge where
  fromState : Schema
  toState : Schema
  node_id : String
  signature : TransformationSignature
deriving DecidableEq

/-- The ordered endpoint pair of an edge, the networkx edge key. -/
def edgeKey (e : TransitionEdge) : Schema × Schema := (e.fromState, e.toState)

/-- Embeds networkx `DiGraph.add_edge` on the edge list: when an edge with
the same `(u, v)` pair exists its attributes are updated in place,
otherwise the edge is appended. -/
def addEdge (es : List TransitionEdge) (e : TransitionEdge) : List TransitionEdge :=
  if (es.filter fun e2 => edgeKey e2 = edgeKey e).isEmpty then
    es ++ [e]
  else
    es.map fun e2 => if edgeKey e2 = edgeKey e then e else e2

/-- The fold state of `build_graph`: the running column set `schema_state`
and the graph's edges.  The code also tracks the name of the current state
vertex; under the canonical identification that name is determined by
`schema_state`, so it is not duplicated here. -/
structure BuildState where
  schema_state : Schema
  edges : List TransitionEdge

/-- Embeds one iteration of the `build_graph` loop (`TransformationGraphBuilder`
and the identical `CayleyGraphOptimizer.build_transformation_graph`): a node
without a signature is skipped (`continue`); a node with one has its
transition computed by `calculate_next_state` and recorded via `add_edge`,
and the running schema state advances. -/
def processNode (st : BuildState) (n : ETLNode) : BuildState :=
  match n.getSignature with
  | none => st
  | some sg =>
    let next := calculate_next_state st.schema_state sg
    { schema_state := next
      edges := addEdge st.edges ⟨st.schema_state, next, n.node_id, sg⟩ }

/-- Embeds `TransformationGraphBuilder.build_graph` /
`CayleyGraphOptimizer.build_transformation_graph`: fold the loop body over
`[source] ++ nodes ++ [sink?]` starting from the empty schema state, and
return the resulting edge set. -/
def build_graph (p : Pipeline) : List TransitionEdge :=
  ((collectPipelineNodes p).foldl processNode ⟨∅, []⟩).edges

/-- The per-step transition trace: one `TransitionEdge` for every
signature-bearing node, in pipeline order, with no overwriting.  This is a
specification-side rendering of the loop used to compare against
`build_graph` (which records the same transitions through `addEdge`). -/
def transitionTrace (s : Schema) : List ETLNode → List TransitionEdge
  | [] => []
  | n :: rest =>
    match n.getSignature with
    | none => transitionTrace s rest
    | some sg =>
      let next := calculate_next_state s sg
      ⟨s, next, n.node_id, sg⟩ :: transitionTrace next rest

/-- Embeds `RedundancyOptimizer.identify_redundancies` and the identical
`CayleyGraphOptimizer._find_no_change_redundancies`: collect the `node_id`
of every edge whose endpoint vertices carry equal schemas; under the
canonical identification that is `fromState = toState`. -/
def find_no_change_redundancies (es : List TransitionEdge) : Finset String :=
  ((es.filter fun e => e.fromState = e.toState).map TransitionEdge.node_id).toFinset

/-- Successor vertices of `u` in the edge list. -/
def successorsOf (es : List TransitionEdge) (u : Schema) : List Schema :=
  (es.filter fun e => e.fromState = u).map TransitionEdge.toState

/-- Fuel-bounded search for a simple path from `u` to `dst` avoiding the
vertices in `visited`: intermediate vertices are pairwise distinct and the
search stops on reaching `dst`. -/
def hasSimplePath (es : List TransitionEdge) : Nat → Schema → Schema → List Schema → Bool
  | 0, _, _, _ => false
  | fuel + 1, u, dst, visited =>
    if u = dst then true
    else (successorsOf es u).any fun w =>
      if w ∈ visited then false
      else hasSimplePath es fuel w dst (w :: visited)

/-- An edge lies on a simple cycle exactly when there is a simple path from
its target back to its source that avoids revisiting the target (a
self-loop is the degenerate one-vertex cycle).  A simple path traverses
pairwise-distinct edges, so fuel `es.length + 1` makes the bounded search
complete. -/
def edgeOnSimpleCycle (es : List TransitionEdge) (e : TransitionEdge) : Bool :=
  hasSimplePath es (es.length + 1) e.toState e.fromState [e.toState]

/-- Embeds `CycleOptimizer.identify_redundancies` and the identical
`CayleyGraphOptimizer._find_cycle_redundancies`.  The code enumerates
`networkx.simple_cycles(graph)` and, for every consecutive vertex pair of
every simple cycle, collects the `node_id` stored on that edge; an id is
therefore collected exactly when its edge lies on at least one simple
cycle, which is what `edgeOnSimpleCycle` decides. -/
def find_cycle_redundancies (es : List TransitionEdge) : Finset String :=
  ((es.filter fun e => edgeOnSimpleCycle es e).map TransitionEdge.node_id).toFinset

/-- Embeds `CayleyGraphOptimizer.identify_redundancies`: the union of the
no-change findings and the cycle findings. -/
def identify_redundancies (es : List TransitionEdge) : Finset String :=
  find_no_change_redundancies es ∪ find_cycle_redundancies es

/-- Embeds `CayleyGraphOptimizer.optimize_pipeline`: reset the graph and
the canonicalization table (hence `build_graph` starts from scratch below),
build the transformation graph, identify redundancies, return the input
pipeline itself when none were found, and otherwise a new `Pipeline`
keeping only the nodes whose id was not flagged. -/
def optimize_pipeline (p : Pipeline) : Pipeline :=
  let redundant_nodes := identify_redundancies (build_graph p)
  if redundant_nodes = ∅ then p
  else ⟨p.source, p.nodes.filter fun n => n.node_id ∉ redundant_nodes, p.sink⟩

/-! The pipeline builder and the execution engine (builder.py, context.py). -/

/-- Embeds `PipelineBuilder`'s state: intermediate nodes, optional source,
optional sink. -/
structure PipelineBuilder where
  nodes : List ETLNode := []
  source : Option ETLNode := none
  sink : Option ETLNode := none

/-- Embeds `PipelineBuilder.set_source` (mutation rendered as state passing). -/
def set_source (b : PipelineBuilder) (src : ETLNode) : PipelineBuilder :=
  { b with source := some src }

/-- Embeds `PipelineBuilder.add_node`: append to the node list. -/
def add_node (b : PipelineBuilder) (n : ETLNode) : PipelineBuilder :=
  { b with nodes := b.nodes ++ [n] }

/-- Embeds `PipelineBuilder.set_sink`. -/
def set_sink (b : PipelineBuilder) (sk : ETLNode) : PipelineBuilder :=
  { b with sink := some sk }

/-- Embeds `PipelineBuilder.build`: a `ValueError` when no source is
configured (`if not self.source` is true exactly for `None`, since an
`ETLNode` instance is never falsy), otherwise
`Pipeline(self.source, self.nodes, self.sink)`. -/
def PipelineBuilder.build (b : PipelineBuilder) : Except String Pipeline :=
  match b.source with
  | none => .error "Pipeline source must be defined before building"
  | some src => .ok ⟨src, b.nodes, b.sink⟩

/-- Embeds `Pipeline._execute_pipeline`'s loop over the intermediate
nodes, threading the context and propagating the first failure. -/
def execute_nodes : List ETLNode → PipelineContext → Except String PipelineContext
  | [], c => .ok c
  | n :: rest, c =>
    match n.run c with
    | .ok c2 => execute_nodes rest c2
    | .error e => .error e

/-- Embeds `Pipeline._execute_pipeline`: run the source, then each node in
order, then the sink when one is configured, passing the context forward. -/
def execute_pipeline_inner (p : Pipeline) (c : PipelineContext) :
    Except String PipelineContext :=
  match p.source.run c with
  | .error e => .error e
  | .ok c1 =>
    match execute_nodes p.nodes c1 with
    | .error e => .error e
    | .ok c2 =>
      match p.sink with
      | some sk => sk.run c2
      | none => .ok c2

/-- Operations performed on the transactional resource and the context's
session slot during one run: `with_session` storing the session in the
context, the `finally` block clearing it, and `session.rollback()`. -/
inductive SessionEvent where
  | acquire
  | release
  | rollback
deriving DecidableEq, BEq, Repr

/-- The fresh context created at the top of `Pipeline.execute`
(`context = PipelineContext()`). -/
def initialContext : PipelineContext := {}

/-- Embeds `Pipeline.execute` (builder.py) together with
`PipelineContext.with_session` (context.py).  Without a session the inner
run executes bare.  With a session, `with_session` stores the session in
the context (acquire), the run proceeds, the `finally` block clears the
session reference (release) on every exit path, and on an exception the
`except` clause additionally issues `session.rollback()` before re-raising
the original exception.  The second component records the session events
in temporal order. -/
def Pipeline.execute (p : Pipeline) (session : Option String) :
    Except String PipelineContext × List SessionEvent :=
  match session with
  | none => (execute_pipeline_inner p initialContext, [])
  | some s =>
    match execute_pipeline_inner p { initialContext with session := some s } with
    | .ok c => (.ok c, [.acquire, .release])
    | .error e => (.error e, [.acquire, .release, .rollback])

/-! Concrete nodes and pipelines used as test inputs for the claims.
The `run` behaviour is irrelevant to the graph analysis; `mkNode` nodes
pass the context through unchanged, matching a side-effect-free step. -/

/-- A signature with the given input and output column sets. -/
def mkSig (i o : Schema) : TransformationSignature :=
  ⟨i, o, "test", []⟩

/-- A node with the given id and optional signature whose `execute`
returns the context unchanged. -/
def mkNode (i : String) (s : Option TransformationSignature) : ETLNode :=
  ⟨i, s, fun c => .ok c⟩

/-- A node whose `execute` raises: models a failing step. -/
def mkFailNode (i : String) (msg : String) : ETLNode :=
  ⟨i, none, fun _ => .error msg⟩

/-- Source with signature `∅ → {a}` followed by two schema-preserving
steps `{a} → {a}`: both steps induce the self-loop on state `{a}`, so the
second `add_edge` overwrites the first. -/
def pOverwrite : Pipeline :=
  ⟨mkNode "src" (some (mkSig ∅ {"a"})),
   [mkNode "t1" (some (mkSig {"a"} {"a"})), mkNode "t2" (some (mkSig {"a"} {"a"}))],
   none⟩

/-- The redundancy-soundness scenario exactly as the spec states it: a
pipeline with one step whose signature is `{a} → {a}` (source without a
signature, as for the concrete connectors in the repository). -/
def pPreserve : Pipeline :=
  ⟨mkNode "csv" none, [mkNode "s1" (some (mkSig {"a"} {"a"}))], none⟩

/-- The same schema-preserving step, but with a source whose signature
`∅ → {a}` first brings the schema state to `{a}`. -/
def pPreserveAfterA : Pipeline :=
  ⟨mkNode "csv" (some (mkSig ∅ {"a"})), [mkNode "s1" (some (mkSig {"a"} {"a"}))], none⟩

/-- The cycle-soundness scenario: step1 `∅ → {a}`, step2 `{a} → {a,b}`,
step3 `{a,b} → {a}`, returning to step1's post-state. -/
def pCycle : Pipeline :=
  ⟨mkNode "csv2" none,
   [mkNode "c1" (some (mkSig ∅ {"a"})),
    mkNode "c2" (some (mkSig {"a"} {"a", "b"})),
    mkNode "c3" (some (mkSig {"a", "b"} {"a"}))],
   none⟩

/-- A pipeline on which a second optimization pass removes a further step:
the source signature `∅ → {a,b}` and step `d0 : {a,b} → ∅` form a cycle,
so `d0` is removed while the source stays; in the pruned pipeline
`d1 : ∅ → {a}` then runs at state `{a,b}` where it is a self-loop. -/
def pTwoPass : Pipeline :=
  ⟨mkNode "srcD" (some (mkSig ∅ {"a", "b"})),
   [mkNode "d0" (some (mkSig {"a", "b"} ∅)), mkNode "d1" (some (mkSig ∅ {"a"}))],
   none⟩

/-- A pipeline that strictly grows the schema: no redundancies. -/
def pGrow : Pipeline :=
  ⟨mkNode "srcB" (some (mkSig ∅ {"a"})), [mkNode "b1" (some (mkSig {"a"} {"a", "b"}))], none⟩

/-- Another redundancy-free pipeline, with an unsignatured source. -/
def pGrow2 : Pipeline :=
  ⟨mkNode "srcC" none, [mkNode "e1" (some (mkSig ∅ {"a"}))], none⟩

/-! Theorems for the claims. -/

/-- C2: for every current column set `C` and signature `sig`, the
next-state computation returns exactly `(C - sig.input_schema) ∪
sig.output_schema`: a column is in the next state precisely when it was
present and not consumed, or is a declared output; and every column the
signature does not mention persists unchanged. -/
theorem calculate_next_state_spec (C : Schema) (sg : TransformationSignature) (c : String) :
    (c ∈ calculate_next_state C sg ↔ (c ∈ C ∧ c ∉ sg.input_schema) ∨ c ∈ sg.output_schema)
    ∧ (c ∉ sg.input_schema → c ∉ sg.output_schema →
        (c ∈ calculate_next_state C sg ↔ c ∈ C)) := by
  unfold calculate_next_state
  constructor
  · simp [Finset.mem_union, Finset.mem_sdiff]
  · intro h1 h2
    simp [Finset.mem_union, Finset.mem_sdiff, h1, h2]

/-- Witness for `calculate_next_state_spec` at a concrete input: the
column `b`, unmentioned by a signature consuming `a` and emitting `c`,
persists. -/
theorem calculate_next_state_spec_witness :
    "b" ∈ calculate_next_state {"a", "b"} (mkSig {"a"} {"c"}) ↔
      "b" ∈ ({"a", "b"} : Schema) :=
  (calculate_next_state_spec {"a", "b"} (mkSig {"a"} {"c"}) "b").2 (by decide) (by decide)

/-- C8: canonicalization is identity-stable within one run: calling
`get_or_create_node` a second time with a value-equal column set returns
the very handle stored by the first call and leaves the table unchanged,
so identical column sets never resolve to two distinct nodes.  This holds
for every minting function, in particular for the code's
`schema_{hash(schema)}`. -/
theorem get_or_create_node_stable (nameOf : Schema → String) (m : SchemaTable)
    (s t : Schema) (h : t = s) :
    (get_or_create_node nameOf (get_or_create_node nameOf m s).2 t).1
      = (get_or_create_node nameOf m s).1
    ∧ (get_or_create_node nameOf (get_or_create_node nameOf m s).2 t).2
      = (get_or_create_node nameOf m s).2 := by
  subst h
  unfold get_or_create_node
  cases hm : lookupSchema m t with
  | some n => simp [hm]
  | none => simp [hm, lookupSchema]

/-- Witness for `get_or_create_node_stable`: a fresh table, the schema
`{a}` canonicalized twice. -/
theorem get_or_create_node_stable_witness :
    (get_or_create_node (fun _ => "n0") (get_or_create_node (fun _ => "n0") [] {"a"}).2
        {"a"}).1
      = (get_or_create_node (fun _ => "n0") [] {"a"}).1 :=
  (get_or_create_node_stable (fun _ => "n0") [] {"a"} {"a"} rfl).1

/-- C9: building fails exactly when no source has been set; with a source
set the result carries the configured source, the added nodes in insertion
order (`add_node` appends), and the optional sink. -/
theorem builder_build_spec (b : PipelineBuilder) :
    ((∃ e, b.build = .error e) ↔ b.source = none)
    ∧ (∀ src, b.source = some src → b.build = .ok ⟨src, b.nodes, b.sink⟩)
    ∧ (∀ n, (add_node b n).nodes = b.nodes ++ [n]) := by
  refine ⟨⟨?_, ?_⟩, ?_, fun n => rfl⟩
  · rintro ⟨e, he⟩
    cases hs : b.source with
    | none => rfl
    | some src => simp [PipelineBuilder.build, hs] at he
  · intro hs
    exact ⟨"Pipeline source must be defined before building",
      by simp [PipelineBuilder.build, hs]⟩
  · intro src hsrc
    simp [PipelineBuilder.build, hsrc]

/-- Witness for `builder_build_spec`: an empty builder fails; after
`set_source` the build succeeds with the configured parts. -/
theorem builder_build_spec_witness :
    (∃ e, (({} : PipelineBuilder)).build = .error e)
    ∧ (set_source {} (mkNode "s" none)).build = .ok ⟨mkNode "s" none, [], none⟩ :=
  ⟨(builder_build_spec {}).1.mpr rfl,
   (builder_build_spec (set_source {} (mkNode "s" none))).2.1 _ rfl⟩

/-! Helper lemmas about the graph build. -/

/-- The edge list built by the loop equals the per-step transition trace
folded through `addEdge`. -/
lemma foldl_processNode_edges (ns : List ETLNode) (s : Schema) (es : List TransitionEdge) :
    (ns.foldl processNode ⟨s, es⟩).edges = (transitionTrace s ns).foldl addEdge es := by
  induction ns generalizing s es with
  | nil => rfl
  | cons n rest ih =>
    rw [List.foldl_cons]
    cases h : n.getSignature with
    | none => simp [processNode, h, transitionTrace, ih]
    | some sg => simp [processNode, h, transitionTrace, ih]

lemma build_graph_eq_foldl (p : Pipeline) :
    build_graph p = (transitionTrace ∅ (collectPipelineNodes p)).foldl addEdge [] :=
  foldl_processNode_edges _ _ _

/-- The trace has exactly one entry per signature-bearing node. -/
lemma transitionTrace_length (ns : List ETLNode) (s : Schema) :
    (transitionTrace s ns).length = ns.countP (fun n => n.getSignature.isSome) := by
  induction ns generalizing s with
  | nil => rfl
  | cons n rest ih =>
    cases h : n.getSignature with
    | none => simp [transitionTrace, h, ih, List.countP_cons]
    | some sg => simp [transitionTrace, h, ih, List.countP_cons]

/-- Updating an existing edge keeps the key list; inserting a new edge
appends its key. -/
lemma addEdge_map_edgeKey (es : List TransitionEdge) (e : TransitionEdge) :
    (addEdge es e).map edgeKey =
      if (es.filter fun e2 => edgeKey e2 = edgeKey e).isEmpty then
        es.map edgeKey ++ [edgeKey e]
      else es.map edgeKey := by
  unfold addEdge
  by_cases h : (es.filter fun e2 => edgeKey e2 = edgeKey e).isEmpty
  · simp [h]
  · rw [if_neg h, if_neg h, List.map_map]
    apply List.map_congr_left
    intro a _
    by_cases ha : edgeKey a = edgeKey e
    · simp [ha]
    · simp [ha]

/-- `addEdge` preserves "at most one edge per ordered vertex pair". -/
lemma addEdge_nodup (es : List TransitionEdge) (e : TransitionEdge)
    (h : (es.map edgeKey).Nodup) : ((addEdge es e).map edgeKey).Nodup := by
  rw [addEdge_map_edgeKey]
  by_cases hf : (es.filter fun e2 => edgeKey e2 = edgeKey e).isEmpty
  · rw [if_pos hf]
    have hnot : edgeKey e ∉ es.map edgeKey := by
      rw [List.isEmpty_iff, List.filter_eq_nil_iff] at hf
      intro hmem
      rcases List.mem_map.mp hmem with ⟨a, ha, hkey⟩
      exact hf a ha (by simp [hkey])
    simp [List.nodup_append, h, hnot]
  · rw [if_neg hf]
    exact h

lemma foldl_addEdge_nodup (l : List TransitionEdge) (es : List TransitionEdge)
    (h : (es.map edgeKey).Nodup) : ((l.foldl addEdge es).map edgeKey).Nodup := by
  induction l generalizing es with
  | nil => exact h
  | cons e rest ih => exact ih _ (addEdge_nodup _ _ h)

/-- When every recorded transition pair is fresh, `addEdge` only ever
appends, so the graph's edge list is the trace itself. -/
lemma foldl_addEdge_of_nodup (l : List TransitionEdge) (es : List TransitionEdge)
    (hd : (l.map edgeKey).Nodup)
    (hdisj : ∀ e ∈ es, ∀ e2 ∈ l, edgeKey e ≠ edgeKey e2) :
    l.foldl addEdge es = es ++ l := by
  induction l generalizing es with
  | nil => simp
  | cons e rest ih =>
    rw [List.map_cons, List.nodup_cons] at hd
    rw [List.foldl_cons]
    have hfilter : (es.filter fun e2 => edgeKey e2 = edgeKey e).isEmpty := by
      rw [List.isEmpty_iff, List.filter_eq_nil_iff]
      intro a ha
      simpa using hdisj a ha e (by simp)
    rw [addEdge, if_pos hfilter]
    rw [ih (es ++ [e]) hd.2 ?_]
    · simp
    · intro x hx y hy
      rcases List.mem_append.mp hx with h1 | h1
      · exact hdisj x h1 y (List.mem_cons_of_mem _ hy)
      · have hxe : x = e := by simpa using h1
        subst hxe
        intro hcontra
        exact hd.1 (hcontra ▸ List.mem_map_of_mem edgeKey hy)

/-- C1 (amended): the graph build iterates over `[source] ++ steps ++
[sink?]` from the empty schema state; steps lacking a signature are
skipped with no edge and no state change, and each signature-bearing step
records the transition from the current state to the canonicalized next
state with its id and signature — but recording overwrites any existing
edge on the same ordered state pair, so the finished graph has one edge
per signature-bearing step exactly when the induced pairs are pairwise
distinct (and in general at most that many). -/
theorem build_graph_trace_spec (p : Pipeline) :
    build_graph p = (transitionTrace ∅ (collectPipelineNodes p)).foldl addEdge []
    ∧ (transitionTrace ∅ (collectPipelineNodes p)).length
        = (collectPipelineNodes p).countP (fun n => n.getSignature.isSome)
    ∧ (((transitionTrace ∅ (collectPipelineNodes p)).map edgeKey).Nodup →
        build_graph p = transitionTrace ∅ (collectPipelineNodes p)) := by
  refine ⟨build_graph_eq_foldl p, transitionTrace_length _ _, fun hnodup => ?_⟩
  rw [build_graph_eq_foldl p, foldl_addEdge_of_nodup _ _ hnodup (by simp)]
  simp

/-- Witness for `build_graph_trace_spec`: a strictly growing pipeline has
pairwise-distinct transition pairs, so its graph is exactly its trace. -/
theorem build_graph_trace_spec_witness :
    build_graph pGrow = transitionTrace ∅ (collectPipelineNodes pGrow) :=
  (build_graph_trace_spec pGrow).2.2 (by decide)

/-- Counterexample to C1 as stated: in `pOverwrite` three steps carry a
signature but the finished graph has only two edges, because the two
schema-preserving steps both induce the pair `({a}, {a})` and the second
overwrites the first. -/
theorem build_graph_merges_parallel_steps :
    (build_graph pOverwrite).length
      ≠ (collectPipelineNodes pOverwrite).countP (fun n => n.getSignature.isSome) := by
  decide

/-- C10: the built graph is a simple directed graph — at most one edge per
ordered pair of canonical state vertices — and when several
signature-bearing steps induce the same pair the later write overwrites
the earlier attributes: in `pOverwrite` the self-loop on `{a}` retains
only the id `t2` of the later preserving step, and the earlier id `t1`
appears on no edge. -/
theorem build_graph_simple_digraph :
    (∀ p : Pipeline, ((build_graph p).map edgeKey).Nodup)
    ∧ (build_graph pOverwrite).map TransitionEdge.node_id = ["src", "t2"]
    ∧ "t1" ∉ (build_graph pOverwrite).map TransitionEdge.node_id := by
  refine ⟨fun p => ?_, by decide, by decide⟩
  rw [build_graph_eq_foldl p]
  exact foldl_addEdge_nodup _ _ (by simp)

/-- When the analysis finds nothing, `optimize_pipeline` returns the input
pipeline itself. -/
lemma optimize_pipeline_of_empty (p : Pipeline)
    (h : identify_redundancies (build_graph p) = ∅) : optimize_pipeline p = p := by
  unfold optimize_pipeline
  simp [h]

/-- C3: `optimize_pipeline` analyses the pipeline it is given (the graph
and table are rebuilt from scratch, so the result is a function of the
input alone); the source and sink are never filtered; the surviving steps
are exactly the original steps whose id is not in the union of the
strategies' findings, kept in their original relative order (a sublist);
and when the union is empty the input pipeline itself is returned. -/
theorem optimize_pipeline_spec (p : Pipeline) :
    (optimize_pipeline p).source = p.source
    ∧ (optimize_pipeline p).sink = p.sink
    ∧ (optimize_pipeline p).nodes
        = p.nodes.filter (fun n => n.node_id ∉ identify_redundancies (build_graph p))
    ∧ List.Sublist (optimize_pipeline p).nodes p.nodes
    ∧ (identify_redundancies (build_graph p) = ∅ → optimize_pipeline p = p) := by
  by_cases h : identify_redundancies (build_graph p) = ∅
  · rw [optimize_pipeline_of_empty p h]
    refine ⟨rfl, rfl, ?_, List.Sublist.refl _, fun _ => rfl⟩
    rw [h]
    simp
  · refine ⟨?_, ?_, ?_, ?_, fun hh => absurd hh h⟩ <;>
      simp only [optimize_pipeline, if_neg h]
    exact List.filter_sublist _

/-- Witness for `optimize_pipeline_spec`: the strictly growing pipeline
`pGrow` has no redundancies, and the optimizer returns it unchanged. -/
theorem optimize_pipeline_spec_witness : optimize_pipeline pGrow = pGrow :=
  (optimize_pipeline_spec pGrow).2.2.2.2 (by decide)

/-- Counterexample to C4 as stated: in the spec's redundancy-soundness
scenario — a pipeline whose single step has signature `{a} → {a}` — the
step's id is not in the redundant set.  The walk starts at the empty
schema state, so the step's edge is `∅ → {a}`, not a self-loop. -/
theorem preserve_step_not_flagged_from_empty :
    "s1" ∉ identify_redundancies (build_graph pPreserve) := by decide

/-- C4 (amended): the no-op strategy marks the id of every edge whose two
endpoint states are the identical canonical state; the schema-preserving
step `{a} → {a}` is therefore flagged exactly when the schema state on
reaching it already equals `{a}`, as in `pPreserveAfterA` where the source
signature `∅ → {a}` establishes it — and not in `pPreserve`, where the
walk reaches the step in the empty state. -/
theorem preserve_step_flagged_after_a :
    "s1" ∈ identify_redundancies (build_graph pPreserveAfterA)
    ∧ "s1" ∈ find_no_change_redundancies (build_graph pPreserveAfterA) := by decide

/-- Counterexample to C5 as stated: in the cycle-soundness scenario not
all three step ids are flagged. -/
theorem cycle_scenario_not_all_flagged :
    ¬ ("c1" ∈ identify_redundancies (build_graph pCycle)
      ∧ "c2" ∈ identify_redundancies (build_graph pCycle)
      ∧ "c3" ∈ identify_redundancies (build_graph pCycle)) := by decide

/-- C5 (amended): in the three-step scenario `∅→{a}`, `{a}→{a,b}`,
`{a,b}→{a}`, the ids of step2 and step3 — whose edges form the simple
cycle `{a} → {a,b} → {a}` — are in the redundant set, while step1's edge
`∅ → {a}` lies on no cycle and its id is absent. -/
theorem cycle_scenario_flags_loop_steps :
    "c2" ∈ identify_redundancies (build_graph pCycle)
    ∧ "c3" ∈ identify_redundancies (build_graph pCycle)
    ∧ "c1" ∉ identify_redundancies (build_graph pCycle) := by decide

/-- Counterexample to C6 as stated: optimization is not idempotent.  On
`pTwoPass` the first pass removes `d0` (its edge closes a cycle through
the source's edge; the source itself is never removed), which shifts the
surviving step `d1` to run at state `{a,b}` where it becomes a self-loop,
so the second pass removes it too. -/
theorem optimize_not_idempotent :
    (optimize_pipeline (optimize_pipeline pTwoPass)).nodes.map ETLNode.node_id
      ≠ (optimize_pipeline pTwoPass).nodes.map ETLNode.node_id := by decide

/-- C6 (amended): a second application of `optimize_pipeline` returns the
first application's result unchanged precisely when the rebuilt graph of
that result yields no redundancies; in general (see
`optimize_not_idempotent`) the second pass may remove further steps. -/
theorem optimize_idempotent_of_stable (p : Pipeline)
    (h : identify_redundancies (build_graph (optimize_pipeline p)) = ∅) :
    optimize_pipeline (optimize_pipeline p) = optimize_pipeline p :=
  optimize_pipeline_of_empty _ h

/-- Witness for `optimize_idempotent_of_stable` on a concrete pipeline
whose optimized form has no redundancies. -/
theorem optimize_idempotent_of_stable_witness :
    optimize_pipeline (optimize_pipeline pGrow2) = optimize_pipeline pGrow2 :=
  optimize_idempotent_of_stable pGrow2 (by decide)

/-- C7: executing with a transactional session, a failure of any stage
leaves the caller with the original failure, one release of the session
(the `finally` block of `with_session`) and one `rollback()`; a fully
successful run returns the final context with the session released once
and no rollback.  The stage order — source, then each step in order, then
the sink when configured — is the definition of
`execute_pipeline_inner`. -/
theorem execute_with_session_spec (p : Pipeline) (s : String) :
    (∀ e, execute_pipeline_inner p { initialContext with session := some s } = .error e →
      (p.execute (some s)).1 = .error e
      ∧ (p.execute (some s)).2.count .release = 1
      ∧ (p.execute (some s)).2.count .rollback = 1)
    ∧ (∀ c, execute_pipeline_inner p { initialContext with session := some s } = .ok c →
      (p.execute (some s)).1 = .ok c
      ∧ (p.execute (some s)).2.count .release = 1
      ∧ (p.execute (some s)).2.count .rollback = 0) := by
  constructor
  · intro e he
    simp only [Pipeline.execute, he]
    exact ⟨by simp, by decide, by decide⟩
  · intro c hc
    simp only [Pipeline.execute, hc]
    exact ⟨by simp, by decide, by decide⟩

/-- A pipeline whose second step raises: the spec's rollback scenario. -/
def pFail : Pipeline :=
  ⟨mkNode "srcF" none, [mkNode "f1" none, mkFailNode "f2" "f2 failed"], none⟩

/-- Witness for `execute_with_session_spec`: the failing run surfaces the
original failure with exactly one release and one rollback. -/
theorem execute_with_session_spec_witness :
    (pFail.execute (some "sess")).1 = .error "f2 failed"
    ∧ (pFail.execute (some "sess")).2.count .release = 1
    ∧ (pFail.execute (some "sess")).2.count .rollback = 1 :=
  (execute_with_session_spec pFail "sess").1 "f2 failed" rfl

end ArcaneFlow
